import Mathlib

/-!
Verification development for the mailbox-ingestion pipeline
(`analysis.py` of the google-takeout-analysis repository).

The Python source is shallowly embedded: each Python function of the
repository becomes a Lean definition of the same name; Python exceptions
become `Except PyErr`; the SQLite connection becomes an explicit record of
committed and pending rows together with the schema objects created by
`init_db`; byte strings become `List Nat`; `print` calls become a log of
structured events.  Standard-library calls made by the source
(`email.header.decode_header`, `email.utils.parsedate_to_datetime`,
`bytes.decode`, `str` slicing, `datetime.astimezone`, `isoformat`) are
modelled alongside, restricted where noted to the header and date forms
exercised here, and faithful to CPython's observable behaviour on those
forms (in particular: `bytes.decode` raises `LookupError` for an unknown
codec name even with `errors="replace"`, and a SQLite `UNIQUE` index
treats the empty string as an ordinary value, so two empty-string keys
collide).
-/

/-- Exceptions that the embedded Python code can raise. -/
inductive PyErr where
  | lookupError
  | valueError
  | integrityError
  | overflowError
deriving DecidableEq, Repr

/-- Model of Python string slicing `s[:n]` (by characters). -/
def pyTake (s : String) (n : Nat) : String :=
  String.mk (s.data.take n)

/-- Lower-case every character, modelling Python `str.lower()` on ASCII. -/
def strLower (s : String) : String :=
  String.mk (s.data.map Char.toLower)

/-- Whether `needle` occurs as a contiguous substring of `hay`, modelling
Python's `needle in hay`. -/
def strContains (hay needle : String) : Bool :=
  (hay.data.tails).any fun t => needle.data.isPrefixOf t

/-- Split a character list on whitespace, dropping empty fields: model of
Python `str.split()` with no argument. -/
def splitWsAux (cs : List Char) (cur : List Char) : List (List Char) :=
  match cs with
  | [] => if cur = [] then [] else [cur.reverse]
  | c :: rest =>
    if c.isWhitespace then
      if cur = [] then splitWsAux rest [] else cur.reverse :: splitWsAux rest []
    else splitWsAux rest (c :: cur)

/-- Model of Python `str.split()` (split on whitespace runs). -/
def splitWs (s : String) : List String :=
  (splitWsAux s.data []).map String.mk

/-- Split a character list on a single separator character, modelling
Python `str.split(sep)` (empty fields are kept). -/
def splitOnCharAux (sep : Char) (cs : List Char) (cur : List Char) : List (List Char) :=
  match cs with
  | [] => [cur.reverse]
  | c :: rest =>
    if c = sep then cur.reverse :: splitOnCharAux sep rest []
    else splitOnCharAux sep rest (c :: cur)

/-- Model of Python `str.split(sep)` for a one-character separator. -/
def splitOnChar (s : String) (sep : Char) : List String :=
  (splitOnCharAux sep s.data []).map String.mk

/-- Value of a decimal digit character, if it is one. -/
def digitVal (c : Char) : Option Nat :=
  if '0' ≤ c ∧ c ≤ '9' then some (c.toNat - '0'.toNat) else none

/-- Parse an unsigned run of decimal digits. -/
def parseDigits (cs : List Char) : Option Nat :=
  match cs with
  | [] => none
  | _ =>
    cs.foldl (fun acc c => do
      let a ← acc
      let d ← digitVal c
      pure (a * 10 + d)) (some 0)

/-- Model of Python `int(s)`: optional sign, then decimal digits (the
underscore-separator and whitespace-stripping extensions are not used by
the mail headers modelled here). -/
def pyInt (s : String) : Option Int :=
  match s.data with
  | '+' :: rest => (parseDigits rest).map Int.ofNat
  | '-' :: rest => (parseDigits rest).map fun n => -(Int.ofNat n)
  | cs => (parseDigits cs).map Int.ofNat

/-- Character sets the embedded `bytes.decode` recognises (after
`decode_header` has lower-cased the name).  Any other name raises
`LookupError` in CPython, even under `errors="replace"`. -/
def knownCharset (cs : String) : Bool :=
  cs = "utf-8" ∨ cs = "utf8" ∨ cs = "utf_8" ∨
  cs = "ascii" ∨ cs = "us-ascii" ∨
  cs = "latin-1" ∨ cs = "latin1" ∨ cs = "iso-8859-1" ∨ cs = "iso8859-1"

/-- Unicode replacement character used by `errors="replace"`. -/
def replChar : Char := Char.ofNat 0xFFFD

/-- Decode a UTF-8 byte list, replacing ill-formed sequences with U+FFFD,
modelling `bytes.decode("utf-8", errors="replace")`.  The `fuel`
parameter (always called with at least the list length) only serves
structural termination; each step consumes at least one byte. -/
def utf8DecodeReplaceAux : Nat → List Nat → List Char
  | 0, _ => []
  | _, [] => []
  | fuel + 1, b :: rest =>
    if b < 0x80 then
      Char.ofNat b :: utf8DecodeReplaceAux fuel rest
    else if 0xC2 ≤ b ∧ b ≤ 0xDF then
      match rest with
      | b2 :: rest2 =>
        if 0x80 ≤ b2 ∧ b2 ≤ 0xBF then
          Char.ofNat ((b - 0xC0) * 0x40 + (b2 - 0x80)) :: utf8DecodeReplaceAux fuel rest2
        else replChar :: utf8DecodeReplaceAux fuel rest
      | [] => [replChar]
    else if 0xE0 ≤ b ∧ b ≤ 0xEF then
      match rest with
      | b2 :: b3 :: rest3 =>
        if 0x80 ≤ b2 ∧ b2 ≤ 0xBF ∧ 0x80 ≤ b3 ∧ b3 ≤ 0xBF then
          let v := (b - 0xE0) * 0x1000 + (b2 - 0x80) * 0x40 + (b3 - 0x80)
          if 0x800 ≤ v ∧ ¬ (0xD800 ≤ v ∧ v ≤ 0xDFFF) then
            Char.ofNat v :: utf8DecodeReplaceAux fuel rest3
          else replChar :: utf8DecodeReplaceAux fuel rest
        else replChar :: utf8DecodeReplaceAux fuel rest
      | _ => replChar :: utf8DecodeReplaceAux fuel rest
    else if 0xF0 ≤ b ∧ b ≤ 0xF4 then
      match rest with
      | b2 :: b3 :: b4 :: rest4 =>
        if 0x80 ≤ b2 ∧ b2 ≤ 0xBF ∧ 0x80 ≤ b3 ∧ b3 ≤ 0xBF ∧ 0x80 ≤ b4 ∧ b4 ≤ 0xBF then
          let v := (b - 0xF0) * 0x40000 + (b2 - 0x80) * 0x1000 + (b3 - 0x80) * 0x40 + (b4 - 0x80)
          if 0x10000 ≤ v ∧ v ≤ 0x10FFFF then
            Char.ofNat v :: utf8DecodeReplaceAux fuel rest4
          else replChar :: utf8DecodeReplaceAux fuel rest
        else replChar :: utf8DecodeReplaceAux fuel rest
      | _ => replChar :: utf8DecodeReplaceAux fuel rest
    else replChar :: utf8DecodeReplaceAux fuel rest

/-- Decode a UTF-8 byte list with replacement of ill-formed sequences. -/
def utf8DecodeReplace (bs : List Nat) : List Char :=
  utf8DecodeReplaceAux bs.length bs

/-- Model of Python `bytes.decode(charset, errors="replace")`: an unknown
codec name raises `LookupError` (the `errors` policy only governs byte
errors once the codec is found); known codecs decode totally, with
replacement for invalid bytes. -/
def pyBytesDecode (charset : String) (bs : List Nat) : Except PyErr String :=
  if ¬ knownCharset charset then .error .lookupError
  else if charset = "latin-1" ∨ charset = "latin1" ∨
          charset = "iso-8859-1" ∨ charset = "iso8859-1" then
    .ok (String.mk (bs.map fun b => Char.ofNat (b % 0x100)))
  else if charset = "ascii" ∨ charset = "us-ascii" then
    .ok (String.mk (bs.map fun b => if b < 0x80 then Char.ofNat b else replChar))
  else
    .ok (String.mk (utf8DecodeReplace bs))

/-- Segment of a header as produced by `email.header.decode_header`:
either a plain `str` (charset `None`) or a byte string with an optional
declared charset. -/
inductive HdrSeg where
  | txt (s : String)
  | bin (bs : List Nat) (charset : Option String)
deriving DecidableEq, Repr

/-- Raw piece recognised while scanning a header for encoded words. -/
inductive RawSeg where
  | plain (cs : List Char)
  | ew (charset : List Char) (encTag : Char) (data : List Char)
deriving DecidableEq, Repr

/-- Split a character list at the first `'?'`; `none` if absent. -/
def spanToQM : List Char → Option (List Char × List Char)
  | [] => none
  | c :: rest =>
    if c = '?' then some ([], rest)
    else (spanToQM rest).map fun p => (c :: p.1, p.2)

/-- Split a character list at the first `"?="`; `none` if absent. -/
def spanToQMEq : List Char → Option (List Char × List Char)
  | [] => none
  | [_] => none
  | c :: c2 :: rest =>
    if c = '?' ∧ c2 = '=' then some ([], rest)
    else (spanToQMEq (c2 :: rest)).map fun p => (c :: p.1, p.2)

/-- Try to read one RFC 2047 encoded word `=?charset?e?data?=` at the head
of the list, mirroring the `ecre` pattern of `email.header` (charset
without `'?'`, encoding tag `q`/`Q`/`b`/`B`, non-greedy data). -/
def parseEWAt (cs : List Char) : Option (RawSeg × List Char) :=
  match cs with
  | '=' :: '?' :: rest => do
    let (cset, rest2) ← spanToQM rest
    match rest2 with
    | e :: '?' :: rest3 =>
      if e = 'q' ∨ e = 'Q' ∨ e = 'b' ∨ e = 'B' then do
        let (data, rest4) ← spanToQMEq rest3
        some (RawSeg.ew cset e data, rest4)
      else none
    | _ => none
  | _ => none

/-- Scan a header into plain runs and encoded words (fuel-driven; each
step consumes at least one character). -/
def scanSegsAux : Nat → List Char → List Char → List RawSeg
  | 0, cur, _ => if cur = [] then [] else [RawSeg.plain cur.reverse]
  | _, cur, [] => if cur = [] then [] else [RawSeg.plain cur.reverse]
  | fuel + 1, cur, c :: rest =>
    match parseEWAt (c :: rest) with
    | some (seg, rest') =>
      let lead := if cur = [] then [] else [RawSeg.plain cur.reverse]
      lead ++ (seg :: scanSegsAux fuel [] rest')
    | none => scanSegsAux fuel (c :: cur) rest

/-- Scan a full header value into raw segments. -/
def scanSegs (cs : List Char) : List RawSeg :=
  scanSegsAux cs.length [] cs

/-- Value of a hexadecimal digit character, if it is one. -/
def hexVal (c : Char) : Option Nat :=
  if '0' ≤ c ∧ c ≤ '9' then some (c.toNat - '0'.toNat)
  else if 'a' ≤ c ∧ c ≤ 'f' then some (c.toNat - 'a'.toNat + 10)
  else if 'A' ≤ c ∧ c ≤ 'F' then some (c.toNat - 'A'.toNat + 10)
  else none

/-- Decode the data of a `q`-encoded word into bytes, modelling
`email.quoprimime.header_decode` followed by the `raw-unicode-escape`
byte conversion of `decode_header`: `'_'` becomes a space, `=XX` a byte,
anything else its own code point (headers are 8-bit here). -/
def qDecodeBytes : Nat → List Char → List Nat
  | 0, _ => []
  | _, [] => []
  | fuel + 1, c :: rest =>
    if c = '_' then 0x20 :: qDecodeBytes fuel rest
    else if c = '=' then
      match rest with
      | h1 :: h2 :: rest2 =>
        match hexVal h1, hexVal h2 with
        | some v1, some v2 => (v1 * 16 + v2) :: qDecodeBytes fuel rest2
        | _, _ => (c.toNat % 0x100) :: qDecodeBytes fuel rest
      | _ => (c.toNat % 0x100) :: qDecodeBytes fuel rest
    else (c.toNat % 0x100) :: qDecodeBytes fuel rest

/-- Value of a base64 alphabet character, if it is one. -/
def b64Val (c : Char) : Option Nat :=
  if 'A' ≤ c ∧ c ≤ 'Z' then some (c.toNat - 'A'.toNat)
  else if 'a' ≤ c ∧ c ≤ 'z' then some (c.toNat - 'a'.toNat + 26)
  else if '0' ≤ c ∧ c ≤ '9' then some (c.toNat - '0'.toNat + 52)
  else if c = '+' then some 62
  else if c = '/' then some 63
  else none

/-- Decode base64 quartets (padding already removed). -/
def b64Quartets : List Nat → Nat → Except PyErr (List Nat)
  | [], _ => .ok []
  | [a, b], _ => .ok [(a * 4 + b / 16) % 0x100]
  | [a, b, c], _ => .ok [(a * 4 + b / 16) % 0x100, (b % 16 * 16 + c / 4) % 0x100]
  | a :: b :: c :: d :: rest, fuel =>
    match fuel with
    | 0 => .error .valueError
    | fuel + 1 => do
      let tail ← b64Quartets rest fuel
      .ok ((a * 4 + b / 16) % 0x100 :: (b % 16 * 16 + c / 4) % 0x100 ::
           (c % 4 * 64 + d) % 0x100 :: tail)
  | _, _ => .error .valueError

/-- Model of `email.base64mime.decode` as used by `decode_header`:
non-alphabet characters are discarded (CPython's default `b64decode`),
then the remaining length must form quartets, possibly with a final
short group; a bad length raises (surfaced by `decode_header` as a
header-parse failure, modelled as `valueError`). -/
def bDecodeBytes (cs : List Char) : Except PyErr (List Nat) :=
  let vals := cs.filterMap b64Val
  b64Quartets vals vals.length

/-- Whether every character of the run is whitespace. -/
def allWs (cs : List Char) : Bool := cs.all Char.isWhitespace

/-- Drop plain runs consisting only of whitespace when they separate two
encoded words, modelling the droplist pass of `decode_header`. -/
def dropWsBetween : List RawSeg → List RawSeg
  | RawSeg.plain p :: (next :: rest) =>
    match next with
    | RawSeg.ew _ _ _ =>
      if allWs p ∧ p ≠ [] then dropWsBetweenKeep (next :: rest)
      else RawSeg.plain p :: dropWsBetween (next :: rest)
    | _ => RawSeg.plain p :: dropWsBetween (next :: rest)
  | s :: rest => s :: dropWsBetween rest
  | [] => []
where
  /-- Continue after an encoded word (the state in which a whitespace-only
  plain run is droppable when another encoded word follows). -/
  dropWsBetweenKeep : List RawSeg → List RawSeg
  | s :: rest => s :: dropWsBetween rest
  | [] => []

/-- Left-strip the first segment when it is plain, as `decode_header`
does with the first unencoded chunk of a line. -/
def lstripFirst : List RawSeg → List RawSeg
  | RawSeg.plain p :: rest =>
    let p' := p.dropWhile Char.isWhitespace
    if p' = [] then rest else RawSeg.plain p' :: rest
  | segs => segs

/-- Model of Python `email.header.decode_header`, restricted to
single-line header values: with no encoded word the whole value is
returned as one `str` segment with charset `None`; otherwise the value
is split into byte segments — plain runs keep charset `None`, encoded
words carry their declared charset lower-cased, with `q` data unquoted
and `b` data base64-decoded (a base64 length error raises). -/
def decode_header (value : String) : Except PyErr (List HdrSeg) :=
  let segs := scanSegs value.data
  if ¬ segs.any (fun s => match s with | RawSeg.ew _ _ _ => true | _ => false) then
    .ok [HdrSeg.txt value]
  else do
    let segs := lstripFirst (dropWsBetween segs)
    segs.filterMapM fun s =>
      match s with
      | RawSeg.plain p =>
        if p = [] then .ok none
        else .ok (some (HdrSeg.bin (p.map fun c => c.toNat % 0x100) none))
      | RawSeg.ew cset e data =>
        if e = 'q' ∨ e = 'Q' then
          .ok (some (HdrSeg.bin (qDecodeBytes data.length data)
            (some (strLower (String.mk cset)))))
        else do
          let bs ← bDecodeBytes data
          .ok (some (HdrSeg.bin bs (some (strLower (String.mk cset)))))

/-- Python `datetime` value as used by the pipeline: calendar fields plus
an optional fixed UTC offset in seconds (`tzinfo`); `off = none` is a
naive datetime. -/
structure PyDatetime where
  year : Nat
  month : Nat
  day : Nat
  hour : Nat
  minute : Nat
  second : Nat
  off : Option Int
deriving DecidableEq, Repr

/-- Whether a Gregorian year is a leap year. -/
def isLeap (y : Nat) : Bool :=
  (y % 4 = 0 ∧ y % 100 ≠ 0) ∨ y % 400 = 0

/-- Number of days in a month (1–12) of a given year. -/
def daysInMonth (y m : Nat) : Nat :=
  if m = 2 then (if isLeap y then 29 else 28)
  else if m = 4 ∨ m = 6 ∨ m = 9 ∨ m = 11 then 30
  else 31

/-- Validation performed by the `datetime` constructor: out-of-range
fields raise `ValueError` (year is limited to 1–9999). -/
def mkDatetime (y mo d h mi s : Nat) (off : Option Int) : Except PyErr PyDatetime :=
  if 1 ≤ y ∧ y ≤ 9999 ∧ 1 ≤ mo ∧ mo ≤ 12 ∧ 1 ≤ d ∧ d ≤ daysInMonth y mo ∧
     h ≤ 23 ∧ mi ≤ 59 ∧ s ≤ 59 then
    .ok ⟨y, mo, d, h, mi, s, off⟩
  else .error .valueError

/-- Month names recognised by `email._parseaddr` (index + 1 is the month
number; the long forms map back via the `mm > 12` adjustment). -/
def monthNames : List String :=
  ["jan", "feb", "mar", "apr", "may", "jun",
   "jul", "aug", "sep", "oct", "nov", "dec",
   "january", "february", "march", "april", "may", "june",
   "july", "august", "september", "october", "november", "december"]

/-- Named zones of `email._parseaddr._timezones`, still in `±HHMM` form. -/
def tzNames : List (String × Int) :=
  [("UT", 0), ("UTC", 0), ("GMT", 0), ("Z", 0),
   ("AST", -400), ("ADT", -300), ("EST", -500), ("EDT", -400),
   ("CST", -600), ("CDT", -500), ("MST", -700), ("MDT", -600),
   ("PST", -800), ("PDT", -700)]

/-- Day-of-week names recognised when skipping the leading `Dow,`. -/
def dayNames : List String :=
  ["mon", "tue", "wed", "thu", "fri", "sat", "sun"]

/-- Intermediate result of `_parsedate_tz`: the six time fields plus the
zone offset in seconds (`none` when the zone is absent, unrecognised, or
the explicit `-0000`). -/
structure ParsedTz where
  year : Nat
  month : Nat
  day : Nat
  hour : Nat
  minute : Nat
  second : Nat
  tz : Option Int
deriving DecidableEq, Repr

/-- Drop one trailing comma, as `_parsedate_tz` does on several tokens. -/
def dropComma (s : String) : String :=
  match s.data.reverse with
  | ',' :: rest => String.mk rest.reverse
  | _ => s

/-- Last index of `','` in a token (Python `str.rfind`), as an option. -/
def rfindComma (s : String) : Option Nat :=
  let idxs := (List.range s.data.length).filter fun i => s.data.getD i ' ' = ','
  idxs.getLast?

/-- Characters of the token after the last comma. -/
def afterLastComma (s : String) : String :=
  match rfindComma s with
  | some i => String.mk (s.data.drop (i + 1))
  | none => s

/-- Model of `email._parseaddr._parsedate_tz`, covering the RFC 5322 /
RFC 850 token shapes handled by CPython: optional day-of-week prefix,
`dd mon yyyy hh:mm[:ss] [zone]` with the documented fixups (swapped
day/month, two-digit years, trailing commas, `hh:mm` and dotted times,
named zones, numeric `±HHMM` zones, and `-0000` meaning "no zone"). -/
def parsedate_tz (s : String) : Option ParsedTz := do
  let data := splitWs s
  match data with
  | [] => none
  | first :: restToks =>
    let data :=
      if first.data.reverse.headD ' ' = ',' ∨ dayNames.contains (strLower first) then
        restToks
      else afterLastComma first :: restToks
    let data :=
      match data with
      | [d0, d1, d2] =>
        let stuff := splitOnChar d0 '-'
        if stuff.length = 3 then stuff ++ [d1, d2] else [d0, d1, d2]
      | _ => data
    let data :=
      match data with
      | [d0, d1, d2, d3] =>
        let iPlus := d3.data.findIdx? (· = '+')
        let i := match iPlus with
          | some i => some i
          | none => d3.data.findIdx? (· = '-')
        match i with
        | some i =>
          if i > 0 then
            [d0, d1, d2, String.mk (d3.data.take i), String.mk (d3.data.drop i)]
          else [d0, d1, d2, d3, ""]
        | none => [d0, d1, d2, d3, ""]
      | _ => data
    match data.take 5 with
    | [dd, mm, yy, tm, tz] => do
      if dd = "" ∨ mm = "" ∨ yy = "" then none
      let mmL := strLower mm
      let (dd, mmIdx) ←
        match monthNames.indexOf? mmL with
        | some i => some (dd, i)
        | none =>
          match monthNames.indexOf? (strLower dd) with
          | some i => some (mm, i)
          | none => none
      let mo := if mmIdx + 1 > 12 then mmIdx + 1 - 12 else mmIdx + 1
      let dd := dropComma dd
      let (yy, tm) := if (yy.data.findIdx? (· = ':')).isSome then (tm, yy) else (yy, tm)
      let yy := dropComma yy
      if yy = "" then none
      let (yy, tz) :=
        if (yy.data.headD ' ').isDigit then (yy, tz) else (tz, yy)
      let tm := dropComma tm
      let tmParts := splitOnChar tm ':'
      let (thh, tmm, tss) ←
        match tmParts with
        | [a, b] => some (a, b, "0")
        | [a, b, c] => some (a, b, c)
        | [a] =>
          if a.data.contains '.' then
            match splitOnChar a '.' with
            | [x, y] => some (x, y, "0")
            | [x, y, z] => some (x, y, z)
            | _ => none
          else none
        | _ => none
      let yyN ← pyInt yy
      let ddN ← pyInt dd
      let thhN ← pyInt thh
      let tmmN ← pyInt tmm
      let tssN ← pyInt tss
      if yyN < 0 ∨ ddN < 0 ∨ thhN < 0 ∨ tmmN < 0 ∨ tssN < 0 then none
      let yyN := yyN.toNat
      let yyN := if yyN < 100 then (if yyN > 68 then yyN + 1900 else yyN + 2000) else yyN
      let tzU := String.mk (tz.data.map Char.toUpper)
      let tzoffset : Option Int :=
        match tzNames.lookup tzU with
        | some v => some v
        | none =>
          match pyInt tzU with
          | some v => if v = 0 ∧ tzU.data.headD ' ' = '-' then none else some v
          | none => none
      let tzoffset : Option Int :=
        match tzoffset with
        | some v =>
          if v ≠ 0 then
            let sign : Int := if v < 0 then -1 else 1
            let a := v.natAbs
            some (sign * ((a / 100) * 3600 + (a % 100) * 60))
          else some v
        | none => none
      some ⟨yyN, mo, ddN.toNat, thhN.toNat, tmmN.toNat, tssN.toNat, tzoffset⟩
    | _ => none

/-- Model of `email.utils.parsedate_to_datetime`: a failed parse raises
`ValueError`; a parse without zone yields a naive datetime; otherwise the
zone becomes a fixed UTC offset (the `datetime` constructor validates the
field ranges). -/
def parsedate_to_datetime (s : String) : Except PyErr PyDatetime :=
  match parsedate_tz s with
  | none => .error .valueError
  | some p =>
    match p.tz with
    | none => mkDatetime p.year p.month p.day p.hour p.minute p.second none
    | some off => mkDatetime p.year p.month p.day p.hour p.minute p.second (some off)

/-- Days from 0000-03-01 to the given civil date (Hinnant's algorithm),
used for offset conversion across day boundaries. -/
def daysFromCivil (y : Int) (m : Int) (d : Int) : Int :=
  let y := if m ≤ 2 then y - 1 else y
  let era : Int := (if 0 ≤ y then y else y - 399) / 400
  let yoe := y - era * 400
  let mp := (m + 9) % 12
  let doy := (153 * mp + 2) / 5 + d - 1
  let doe := yoe * 365 + yoe / 4 - yoe / 100 + doy
  era * 146097 + doe

/-- Civil date from a day count (inverse of `daysFromCivil`). -/
def civilFromDays (z : Int) : Int × Int × Int :=
  let era : Int := (if 0 ≤ z then z else z - 146096) / 146097
  let doe := z - era * 146097
  let yoe := (doe - doe / 1460 + doe / 36524 - doe / 146096) / 365
  let y := yoe + era * 400
  let doy := doe - (365 * yoe + yoe / 4 - yoe / 100)
  let mp := (5 * doy + 2) / 153
  let d := doy - (153 * mp + 2) / 5 + 1
  let m := if mp < 10 then mp + 3 else mp - 9
  (if m ≤ 2 then y + 1 else y, m, d)

/-- Model of `datetime.astimezone(timezone.utc)` on an aware datetime:
when the offset is already zero CPython returns the value unchanged
(`timezone(timedelta(0))` is the UTC singleton); otherwise the fields
are shifted by the offset, and a result outside year 1–9999 raises
(`OverflowError`); the shifted result is revalidated through the
constructor model. -/
def astimezoneUtc (dt : PyDatetime) (off : Int) : Except PyErr PyDatetime :=
  if off = 0 then .ok { dt with off := some 0 }
  else
    let days := daysFromCivil (Int.ofNat dt.year) (Int.ofNat dt.month) (Int.ofNat dt.day)
    let secs := days * 86400 + Int.ofNat dt.hour * 3600 + Int.ofNat dt.minute * 60 +
                Int.ofNat dt.second - off
    let z := secs / 86400
    let rem := (secs % 86400).toNat
    let (y, m, d) := civilFromDays z
    if 1 ≤ y ∧ y ≤ 9999 then
      mkDatetime y.toNat m.toNat d.toNat (rem / 3600) (rem % 3600 / 60) (rem % 60) (some 0)
    else .error .overflowError

/-- Render a number as exactly two decimal digits (fields are already
validated to be below 100). -/
def pad2 (n : Nat) : String :=
  String.mk [Nat.digitChar (n / 10 % 10), Nat.digitChar (n % 10)]

/-- Render a number as exactly four decimal digits (years are already
validated to be below 10000). -/
def pad4 (n : Nat) : String :=
  String.mk [Nat.digitChar (n / 1000 % 10), Nat.digitChar (n / 100 % 10),
             Nat.digitChar (n / 10 % 10), Nat.digitChar (n % 10)]

/-- Model of `datetime.isoformat(timespec="seconds")` for the aware UTC
values produced by this pipeline: date, `'T'`, time, then the `+00:00`
offset suffix. -/
def isoformatSec (dt : PyDatetime) : String :=
  pad4 dt.year ++ "-" ++ pad2 dt.month ++ "-" ++ pad2 dt.day ++ "T" ++
  pad2 dt.hour ++ ":" ++ pad2 dt.minute ++ ":" ++ pad2 dt.second ++ "+00:00"

/-- Embedding of `parse_date_to_iso` (analysis.py): empty input yields
`""`; otherwise parse the date, assume UTC when the parse is naive,
convert to UTC and render with second precision; any exception from the
`try` block yields `""`. -/
def parse_date_to_iso (date_str : String) : String :=
  if date_str = "" then ""
  else
    match parsedate_to_datetime date_str with
    | .error _ => ""
    | .ok dt =>
      match dt.off with
      | none =>
        match astimezoneUtc { dt with off := some 0 } 0 with
        | .error _ => ""
        | .ok dtUtc => isoformatSec dtUtc
      | some o =>
        match astimezoneUtc dt o with
        | .error _ => ""
        | .ok dtUtc => isoformatSec dtUtc

/-- Embedding of `decode_mime_header` (analysis.py): decode each segment
returned by `decode_header`, using the declared charset or `"utf-8"`
when it is `None`, with `errors="replace"`; plain `str` segments pass
through; the decoded pieces are concatenated.  There is no exception
handler, so a `LookupError` from an unknown charset propagates. -/
def decode_mime_header (value : String) : Except PyErr String :=
  if value = "" then .ok ""
  else do
    let segs ← decode_header value
    let parts ← segs.mapM fun s =>
      match s with
      | HdrSeg.txt t => Except.ok t
      | HdrSeg.bin bs cs => pyBytesDecode (cs.getD "utf-8") bs
    .ok (String.join parts)

/-- Email message as the pipeline observes it: either a leaf part with a
content type, headers, a content charset and a decodable payload
(`get_payload(decode=True)`, `none` when absent), or a multipart
container with its own content type, headers and sub-parts. -/
inductive PyMsg where
  | leaf (ctype : String) (headers : List (String × String))
         (charset : Option String) (payload : Option (List Nat))
  | multi (ctype : String) (headers : List (String × String)) (parts : List PyMsg)

/-- Headers of a message or part. -/
def msgHeaders : PyMsg → List (String × String)
  | PyMsg.leaf _ hs _ _ => hs
  | PyMsg.multi _ hs _ => hs

/-- Model of `msg.get(name, default)`: case-insensitive lookup of the
first matching header. -/
def msgGetD (m : PyMsg) (name dflt : String) : String :=
  match (msgHeaders m).find? (fun h => strLower h.1 = strLower name) with
  | some h => h.2
  | none => dflt

/-- Content type of a message or part (`get_content_type`). -/
def msgCtype : PyMsg → String
  | PyMsg.leaf ct _ _ _ => ct
  | PyMsg.multi ct _ _ => ct

/-- Model of `msg.is_multipart()`. -/
def msgIsMultipart : PyMsg → Bool
  | PyMsg.leaf _ _ _ _ => false
  | PyMsg.multi _ _ _ => true

/-- Content charset of a part (`get_content_charset`), `none` when the
part declares none (multipart containers declare none). -/
def msgCharset : PyMsg → Option String
  | PyMsg.leaf _ _ cs _ => cs
  | PyMsg.multi _ _ _ => none

/-- Model of `msg.get_payload(decode=True)`: bytes for a leaf part,
`None` for a multipart container. -/
def msgPayload : PyMsg → Option (List Nat)
  | PyMsg.leaf _ _ _ p => p
  | PyMsg.multi _ _ _ => none

/-- Model of `msg.walk()`: the message itself, then every sub-part in
document order, recursively. -/
def msgWalk : PyMsg → List PyMsg
  | PyMsg.leaf ct hs cs p => [PyMsg.leaf ct hs cs p]
  | PyMsg.multi ct hs parts => PyMsg.multi ct hs parts :: walkList parts
where
  /-- Walk of a list of sibling parts, in order. -/
  walkList : List PyMsg → List PyMsg
  | [] => []
  | p :: rest => msgWalk p ++ walkList rest

/-- Body of the `for part in msg.walk()` loop of
`get_plain_text_preview`: the first `text/plain` part whose disposition
does not contain `"attachment"` and whose payload is truthy (non-empty
bytes) is decoded and truncated; a falsy payload keeps scanning; the
loop falling through returns `""`.  A decode failure escapes to the
outer handler. -/
def previewLoop (limit : Nat) : List PyMsg → Except PyErr String
  | [] => .ok ""
  | part :: rest =>
    if msgCtype part = "text/plain" then
      let disp := strLower (msgGetD part "Content-Disposition" "")
      if strContains disp "attachment" then previewLoop limit rest
      else
        match msgPayload part with
        | some bs =>
          if bs ≠ [] then
            match pyBytesDecode ((msgCharset part).getD "utf-8") bs with
            | .error e => .error e
            | .ok txt => .ok (pyTake txt limit)
          else previewLoop limit rest
        | none => previewLoop limit rest
    else previewLoop limit rest

/-- Embedding of `get_plain_text_preview` (analysis.py): multipart
messages are scanned via `walk` as in `previewLoop`; a single-part
message decodes its own payload when truthy, else `""`; the whole body
is wrapped in `try/except`, so any exception yields `""`. -/
def get_plain_text_preview (msg : PyMsg) (limit : Nat) : String :=
  let attempt : Except PyErr String :=
    if msgIsMultipart msg then previewLoop limit (msgWalk msg)
    else
      match msgPayload msg with
      | some bs =>
        if bs ≠ [] then
          match pyBytesDecode ((msgCharset msg).getD "utf-8") bs with
          | .error e => .error e
          | .ok txt => .ok (pyTake txt limit)
        else .ok ""
      | none => .ok ""
  match attempt with
  | .ok s => s
  | .error _ => ""

/-- Row of the `emails` table (the synthetic integer primary key is the
list position and is not represented). -/
structure Row where
  message_id : String
  date_iso : String
  date_day : String
  from_addr : String
  to_addr : String
  cc_addr : String
  subject : String
  body_preview : String
deriving DecidableEq, Repr

/-- Schema objects created by `init_db`. -/
structure Schema where
  emailsTable : Bool
  idxMessageId : Bool
  idxDateDay : Bool
  idxFrom : Bool
  idxTo : Bool
  idxSubject : Bool
deriving DecidableEq, Repr

/-- Schema with every object present. -/
def fullSchema : Schema := ⟨true, true, true, true, true, true⟩

/-- SQLite connection state: schema objects, committed rows, and rows
inserted in the current (not yet committed) transaction. -/
structure Conn where
  schema : Schema
  committed : List Row
  pending : List Row
deriving DecidableEq, Repr

/-- Rows visible to statements on this connection (committed plus its
own uncommitted writes). -/
def visibleRows (c : Conn) : List Row :=
  c.committed ++ c.pending

/-- Whether a row with this `message_id` is already visible; this is the
conflict condition of the `UNIQUE` index `idx_message_id`, which treats
the empty string as an ordinary value (only `NULL` is exempt in SQLite,
and the pipeline always binds strings). -/
def keyPresent (c : Conn) (mid : String) : Bool :=
  (visibleRows c).any fun r => r.message_id = mid

/-- Model of `INSERT OR IGNORE INTO emails ...`: a uniqueness conflict is
silently ignored, otherwise the row is staged. -/
def insertOrIgnore (c : Conn) (row : Row) : Conn :=
  if keyPresent c row.message_id then c
  else { c with pending := c.pending ++ [row] }

/-- Model of plain `INSERT INTO emails ...`: a uniqueness conflict raises
`IntegrityError`, otherwise the row is staged. -/
def insertPlain (c : Conn) (row : Row) : Except PyErr Conn :=
  if keyPresent c row.message_id then .error .integrityError
  else .ok { c with pending := c.pending ++ [row] }

/-- Model of `conn.commit()`: staged rows become durable. -/
def commitConn (c : Conn) : Conn :=
  ⟨c.schema, c.committed ++ c.pending, []⟩

/-- Embedding of `init_db` (analysis.py): `CREATE TABLE IF NOT EXISTS`
and the five `CREATE ... INDEX IF NOT EXISTS` statements create each
object when absent and do nothing when present, then `conn.commit()`. -/
def init_db (c : Conn) : Conn :=
  commitConn { c with schema := fullSchema }

/-- Try-block body of one iteration of the `flush_batch` loop: non-empty
`message_id` uses `INSERT OR IGNORE`, empty uses plain `INSERT`. -/
def insertRow (c : Conn) (row : Row) : Except PyErr Conn :=
  if row.message_id ≠ "" then .ok (insertOrIgnore c row)
  else insertPlain c row

/-- Loop of `flush_batch`: each row is attempted in order; success
increments `inserted`, any exception is caught and increments `skipped`,
and the loop always continues with the next row. -/
def flushLoop (c : Conn) (inserted skipped : Nat) : List Row → Nat × Nat × Conn
  | [] => (inserted, skipped, c)
  | row :: rest =>
    match insertRow c row with
    | .ok c' => flushLoop c' (inserted + 1) skipped rest
    | .error _ => flushLoop c inserted (skipped + 1) rest

/-- Embedding of `flush_batch` (analysis.py): run the per-row loop, then
a single `conn.commit()`, and return `(inserted, skipped)` (the mutated
connection is returned explicitly). -/
def flush_batch (c : Conn) (batch : List Row) : Nat × Nat × Conn :=
  ((flushLoop c 0 0 batch).1, (flushLoop c 0 0 batch).2.1,
   commitConn (flushLoop c 0 0 batch).2.2)

/-- Observable `print` events of `ingest`. -/
inductive PrintEvt where
  | progress (processed inserted skipped : Nat)
  | summary (inserted skipped : Nat) (dbPath : String)
deriving DecidableEq, Repr

/-- Per-message body of the `ingest` loop, producing the row tuple bound
into the insert; `decode_mime_header` is not wrapped in a handler here,
so its exceptions propagate out of `ingest`. -/
def processMsg (msg : PyMsg) (store_preview : Bool) : Except PyErr Row := do
  let message_id := msgGetD msg "Message-Id" ""
  let date_iso := parse_date_to_iso (msgGetD msg "Date" "")
  let date_day := if date_iso ≠ "" then pyTake date_iso 10 else ""
  let from_addr ← decode_mime_header (msgGetD msg "From" "")
  let to_addr ← decode_mime_header (msgGetD msg "To" "")
  let cc_addr ← decode_mime_header (msgGetD msg "Cc" "")
  let subject ← decode_mime_header (msgGetD msg "Subject" "")
  let body_preview := if store_preview then get_plain_text_preview msg 2000 else ""
  .ok ⟨message_id, date_iso, date_day, from_addr, to_addr, cc_addr, subject, body_preview⟩

/-- State threaded through the `ingest` loop. -/
structure LoopSt where
  batch : List Row
  inserted : Nat
  skipped : Nat
  conn : Conn
  log : List PrintEvt
deriving Repr

/-- Loop of `ingest` over the mailbox messages (`i` is the `enumerate`
index): each message is normalised and appended to the batch; when the
batch reaches `BATCH_SIZE = 2000` it is flushed, the counters updated,
the batch cleared, and every 10000th message logs a progress line. -/
def ingestLoop (store_preview : Bool) : List PyMsg → Nat → LoopSt → Except PyErr LoopSt
  | [], _, st => .ok st
  | msg :: rest, i, st =>
    match processMsg msg store_preview with
    | .error e => .error e
    | .ok row =>
    let batch := st.batch ++ [row]
    if batch.length ≥ 2000 then
      let inserted := st.inserted + (flush_batch st.conn batch).1
      let skipped := st.skipped + (flush_batch st.conn batch).2.1
      let conn := (flush_batch st.conn batch).2.2
      let log :=
        if (i + 1) % 10000 = 0 then st.log ++ [PrintEvt.progress (i + 1) inserted skipped]
        else st.log
      ingestLoop store_preview rest (i + 1) ⟨[], inserted, skipped, conn, log⟩
    else
      ingestLoop store_preview rest (i + 1) ⟨batch, st.inserted, st.skipped, st.conn, st.log⟩

/-- Result of `ingest`: the Python return value (`None` — the function
body has no `return` statement), the final connection state, and the
printed log. -/
structure IngestResult where
  ret : Option (Nat × Nat)
  conn : Conn
  log : List PrintEvt
deriving Repr

/-- Embedding of `ingest` (analysis.py): connect (the caller passes the
freshly connected state), `init_db`, stream the messages through the
loop, flush any remaining partial batch, close, and print the summary
line with the final totals.  The function returns `None`. -/
def ingest (msgs : List PyMsg) (c : Conn) (store_preview : Bool) (db_path : String) :
    Except PyErr IngestResult :=
  match ingestLoop store_preview msgs 0 ⟨[], 0, 0, init_db c, []⟩ with
  | .error e => .error e
  | .ok st =>
  let fin : Nat × Nat × Conn :=
    if st.batch ≠ [] then
      (st.inserted + (flush_batch st.conn st.batch).1,
       st.skipped + (flush_batch st.conn st.batch).2.1,
       (flush_batch st.conn st.batch).2.2)
    else (st.inserted, st.skipped, st.conn)
  .ok ⟨none, fin.2.2, st.log ++ [PrintEvt.summary fin.1 fin.2.1 db_path]⟩

/-- Whether a part qualifies under the claim's words for the preview: a
`text/plain` content type and a disposition that does not indicate an
attachment (payload truthiness is deliberately not part of this
predicate — the claim does not mention it). -/
def claimQualifying (p : PyMsg) : Bool :=
  msgCtype p = "text/plain" ∧
  ¬ strContains (strLower (msgGetD p "Content-Disposition" "")) "attachment"

/-- Formalisation of claim C7's words (spec §4.1 `extract_preview`): the
decoded text of the first part in document order whose content type is
`text/plain` and whose disposition does not indicate an attachment,
truncated to `limit`; empty when no such part exists or on failure. -/
def specPreviewClaim (msg : PyMsg) (limit : Nat) : String :=
  match (msgWalk msg).find? claimQualifying with
  | some p =>
    match msgPayload p with
    | some bs =>
      match pyBytesDecode ((msgCharset p).getD "utf-8") bs with
      | .ok t => pyTake t limit
      | .error _ => ""
    | none => ""
  | none => ""

/-- Truthiness of `part.get_payload(decode=True)` in the `if payload:`
test: present and non-empty. -/
def truthyPayload (p : PyMsg) : Bool :=
  ((msgPayload p).getD []) ≠ []

/-- First-part characterisation that the code actually implements: the
first `text/plain`, non-attachment part whose payload is also truthy. -/
def specPreviewAmended (msg : PyMsg) (limit : Nat) : String :=
  match (msgWalk msg).find? (fun p => claimQualifying p && truthyPayload p) with
  | some p =>
    match pyBytesDecode ((msgCharset p).getD "utf-8") ((msgPayload p).getD []) with
    | .ok t => pyTake t limit
    | .error _ => ""
  | none => ""

/-- Connection to a fresh (empty) database file, before any schema
creation. -/
def emptyConn : Conn := ⟨⟨false, false, false, false, false, false⟩, [], []⟩

/-- Record with an empty `message_id` and all other fields empty, as
produced for a message that lacks every header. -/
def emptyKeyRow : Row := ⟨"", "", "", "", "", "", "", ""⟩

/-- Message (a) of the spec §8 end-to-end scenario: `Message-Id <a@x>`,
a `q`-encoded subject, and a valid `+0000` date (message (b) is the
byte-identical duplicate, so the same term is used twice). -/
def msgA : PyMsg := PyMsg.leaf "text/plain"
  [("Message-Id", "<a@x>"), ("Subject", "=?utf-8?q?Hi?="),
   ("Date", "Mon, 01 Jan 2024 10:00:00 +0000")] none none

/-- Message (c) of the spec §8 end-to-end scenario: no `Message-Id` and
an unparseable date. -/
def msgC : PyMsg := PyMsg.leaf "text/plain" [("Date", "not a date")] none none

/-- Row the pipeline produces for `msgA`. -/
def rowAExpected : Row :=
  ⟨"<a@x>", "2024-01-01T10:00:00+00:00", "2024-01-01", "", "", "", "Hi", ""⟩

/-- Row the pipeline produces for `msgC`. -/
def rowCExpected : Row := ⟨"", "", "", "", "", "", "", ""⟩

/-- Multipart message whose first `text/plain` part has an empty payload
and whose second carries the bytes of `"hi"`. -/
def cMsgEmptyFirst : PyMsg := PyMsg.multi "multipart/mixed" []
  [PyMsg.leaf "text/plain" [] none (some []),
   PyMsg.leaf "text/plain" [] none (some [104, 105])]

/-- Multipart message whose only part is an attachment. -/
def attachOnlyMsg : PyMsg := PyMsg.multi "multipart/mixed" []
  [PyMsg.leaf "application/pdf"
    [("Content-Disposition", "attachment; filename=x.pdf")] none (some [1, 2, 3])]

/-- Accumulator shift for the `flush_batch` loop: the starting counter
values add linearly to the result. -/
lemma flushLoop_shift (l : List Row) : ∀ (c : Conn) (i s : Nat),
    flushLoop c i s l =
      ((flushLoop c 0 0 l).1 + i, (flushLoop c 0 0 l).2.1 + s, (flushLoop c 0 0 l).2.2) := by
  induction l with
  | nil => intro c i s; simp [flushLoop]
  | cons row rest ih =>
    intro c i s
    cases h : insertRow c row with
    | ok c2 =>
      simp only [flushLoop, h]
      rw [ih c2 (i + 1) s, ih c2 1 0]
      simp [Prod.ext_iff]
      omega
    | error e =>
      simp only [flushLoop, h]
      rw [ih c i (s + 1), ih c 0 1]
      simp [Prod.ext_iff]
      omega

/-- Every record of a batch lands in exactly one of the two counters. -/
lemma flushLoop_totals (l : List Row) : ∀ (c : Conn),
    (flushLoop c 0 0 l).1 + (flushLoop c 0 0 l).2.1 = l.length := by
  induction l with
  | nil => intro c; simp [flushLoop]
  | cons row rest ih =>
    intro c
    cases h : insertRow c row with
    | ok c2 =>
      simp only [flushLoop, h]
      rw [flushLoop_shift rest c2 1 0]
      have := ih c2
      simp
      omega
    | error e =>
      simp only [flushLoop, h]
      rw [flushLoop_shift rest c 0 1]
      have := ih c
      simp
      omega

/-- Counter conservation for `flush_batch`. -/
lemma flush_batch_totals (c : Conn) (batch : List Row) :
    (flush_batch c batch).1 + (flush_batch c batch).2.1 = batch.length := by
  simpa [flush_batch] using flushLoop_totals batch c

/-- The single trailing commit leaves nothing pending. -/
lemma flush_batch_pending (c : Conn) (batch : List Row) :
    (flush_batch c batch).2.2.pending = [] := by
  simp [flush_batch, commitConn]

/-- A single insert attempt never removes a visible row. -/
lemma insertRow_visible_mono (c : Conn) (row r : Row) :
    r ∈ visibleRows c →
      (∀ c2, insertRow c row = .ok c2 → r ∈ visibleRows c2) := by
  intro hr c2 h
  unfold insertRow insertPlain insertOrIgnore at h
  split at h
  · cases h
    split
    · exact hr
    · simp [visibleRows] at hr ⊢
      tauto
  · split at h
    · cases h
    · cases h
      simp [visibleRows] at hr ⊢
      tauto

/-- The flush loop never removes a visible row. -/
lemma flushLoop_visible_mono (l : List Row) : ∀ (c : Conn) (i s : Nat) (r : Row),
    r ∈ visibleRows c → r ∈ visibleRows (flushLoop c i s l).2.2 := by
  induction l with
  | nil => intro c i s r hr; simpa [flushLoop] using hr
  | cons row rest ih =>
    intro c i s r hr
    cases h : insertRow c row with
    | ok c2 =>
      simp only [flushLoop, h]
      exact ih c2 (i + 1) s r (insertRow_visible_mono c row r hr c2 h)
    | error e =>
      simp only [flushLoop, h]
      exact ih c i (s + 1) r hr

/-- Rows visible before a flush (committed rows and any staged rows) are
durable — committed — afterwards: later per-row failures roll nothing
back. -/
lemma flush_batch_durable (c : Conn) (batch : List Row) (r : Row) :
    r ∈ visibleRows c → r ∈ (flush_batch c batch).2.2.committed := by
  intro hr
  have := flushLoop_visible_mono batch c 0 0 r hr
  simpa [flush_batch, commitConn, visibleRows] using this

/-- Invariant of the `ingest` loop: counters plus the pending batch grow
by exactly the number of messages processed, and the final connection is
either freshly committed or untouched. -/
lemma ingestLoop_invariant (sp : Bool) (msgs : List PyMsg) : ∀ (i : Nat) (st st' : LoopSt),
    ingestLoop sp msgs i st = .ok st' →
      st'.inserted + st'.skipped + st'.batch.length =
        st.inserted + st.skipped + st.batch.length + msgs.length ∧
      (st'.conn.pending = [] ∨ st'.conn.pending = st.conn.pending) := by
  induction msgs with
  | nil =>
    intro i st st' h
    simp [ingestLoop] at h
    subst h
    simp
  | cons msg rest ih =>
    intro i st st' h
    simp only [ingestLoop] at h
    cases hrow : processMsg msg sp with
    | error e =>
      rw [hrow] at h
      simp [Except.bind] at h
    | ok row =>
      rw [hrow] at h
      simp only [Except.bind] at h
      by_cases hb : (st.batch ++ [row]).length ≥ 2000
      · rw [if_pos hb] at h
        have h2 := ih (i + 1) _ st' h
        have hf := flush_batch_totals st.conn (st.batch ++ [row])
        have hp := flush_batch_pending st.conn (st.batch ++ [row])
        constructor
        · have h1 := h2.1
          simp at h1 hf ⊢
          omega
        · rcases h2.2 with h3 | h3
          · exact Or.inl h3
          · exact Or.inl (h3.trans hp)
      · rw [if_neg hb] at h
        have h2 := ih (i + 1) _ st' h
        constructor
        · have h1 := h2.1
          simp at h1 ⊢
          omega
        · exact h2.2

/-- Characterisation of a completed run: the Python return value is
`None`, every staged row has been flushed and committed, and the printed
summary line reports totals that account for every message streamed. -/
lemma ingest_characterization (msgs : List PyMsg) (c : Conn) (sp : Bool) (path : String)
    (r : IngestResult) (h : ingest msgs c sp path = .ok r) :
    r.ret = none ∧ r.conn.pending = [] ∧
      ∃ i s, r.log.getLast? = some (PrintEvt.summary i s path) ∧ i + s = msgs.length := by
  unfold ingest at h
  cases hst : ingestLoop sp msgs 0 ⟨[], 0, 0, init_db c, []⟩ with
  | error e =>
    rw [hst] at h
    simp at h
  | ok st =>
    rw [hst] at h
    simp only [] at h
    have h2 := ingestLoop_invariant sp msgs 0 ⟨[], 0, 0, init_db c, []⟩ st hst
    have htot : st.inserted + st.skipped + st.batch.length = msgs.length := by
      have := h2.1
      simpa using this
    have hpend : st.conn.pending = [] := by
      rcases h2.2 with h3 | h3
      · exact h3
      · rw [h3]
        simp [init_db, commitConn]
    by_cases hb : st.batch ≠ []
    · rw [if_pos hb] at h
      injection h with h
      subst h
      refine ⟨rfl, flush_batch_pending st.conn st.batch, ?_⟩
      refine ⟨st.inserted + (flush_batch st.conn st.batch).1,
              st.skipped + (flush_batch st.conn st.batch).2.1, ?_, ?_⟩
      · simp
      · have hf := flush_batch_totals st.conn st.batch
        omega
    · rw [if_neg hb] at h
      injection h with h
      subst h
      refine ⟨rfl, hpend, st.inserted, st.skipped, ?_, ?_⟩
      · simp
      · have hb2 : st.batch = [] := by
          by_contra hx
          exact hb hx
        rw [hb2] at htot
        simpa using htot

/-- Two-digit rendering always has exactly two characters. -/
lemma pad2_length (n : Nat) : (pad2 n).length = 2 := rfl

/-- Four-digit rendering always has exactly four characters. -/
lemma pad4_length (n : Nat) : (pad4 n).length = 4 := rfl

/-- Rendered ISO timestamps always have exactly 25 characters
(`YYYY-MM-DDTHH:MM:SS+00:00`). -/
lemma isoformatSec_length (dt : PyDatetime) : (isoformatSec dt).length = 25 := by
  simp [isoformatSec, String.length_append, pad2_length, pad4_length]
  decide

/-- Output shape of `parse_date_to_iso`: the empty string or a rendered
ISO timestamp. -/
lemma parse_date_to_iso_shape (s : String) :
    parse_date_to_iso s = "" ∨ ∃ dt, parse_date_to_iso s = isoformatSec dt := by
  unfold parse_date_to_iso
  by_cases hs : s = ""
  · simp [hs]
  · rw [if_neg hs]
    cases hp : parsedate_to_datetime s with
    | error e => simp [hp]
    | ok dt =>
      cases ho : dt.off with
      | none =>
        cases ha : astimezoneUtc { dt with off := some 0 } 0 with
        | error e => simp [ho, ha]
        | ok u =>
          right
          exact ⟨u, by simp [ho, ha]⟩
      | some o =>
        cases ha : astimezoneUtc dt o with
        | error e => simp [ho, ha]
        | ok u =>
          right
          exact ⟨u, by simp [ho, ha]⟩

/-- C1: the spec exempts empty `message_id` from uniqueness and expects
two empty-key records to yield two rows, but the `UNIQUE` index created
by `init_db` covers the empty string (SQLite exempts only `NULL`), so on
a fresh store the second plain `INSERT` of an empty-key record raises
`IntegrityError` and is skipped: `flush_batch` reports one inserted and
one skipped, and the table holds a single empty-key row — contradicting
the code's own "could duplicate" comments. -/
theorem c1_empty_key_duplicate_rejected :
    flush_batch (init_db emptyConn) [emptyKeyRow, emptyKeyRow] =
      (1, 1, ⟨fullSchema, [emptyKeyRow], []⟩) := rfl

/-- C2 counterexample: on the three-message input of spec §8 the code
reports inserted=3 and skipped=0 (the silently-ignored duplicate is
counted as inserted by `flush_batch`), not the claimed inserted=2,
skipped=1. -/
theorem c2_totals_counterexample :
    (ingest [msgA, msgA, msgC] emptyConn true "mail.sqlite").map IngestResult.log =
      .ok [PrintEvt.summary 3 0 "mail.sqlite"] ∧
    PrintEvt.summary 3 0 "mail.sqlite" ≠ PrintEvt.summary 2 1 "mail.sqlite" :=
  ⟨rfl, by decide⟩

/-- C2 amended: the end-to-end run stores exactly the two expected rows
(the deduplicated `<a@x>` message with subject `"Hi"`, `date_iso`
`2024-01-01T10:00:00+00:00`, `date_day` `2024-01-01`; and the key-less,
undated message with empty `date_iso` and `date_day`), returns `None`,
and reports inserted=3, skipped=0. -/
theorem c2_end_to_end :
    ingest [msgA, msgA, msgC] emptyConn true "mail.sqlite" =
      .ok ⟨none, ⟨fullSchema, [rowAExpected, rowCExpected], []⟩,
           [PrintEvt.summary 3 0 "mail.sqlite"]⟩ := rfl

/-- C3: `decode_mime_header` is not total — a header whose encoded word
declares an unknown charset raises `LookupError` (`errors="replace"`
only governs byte errors once the codec is found, and the function has
no handler), contradicting the spec's "unknown or missing character
sets default to UTF-8 … never fails". -/
theorem c3_unknown_charset_raises :
    decode_mime_header "=?x-unknown?q?hi?=" = .error PyErr.lookupError := rfl

/-- C4 counterexample: `ingest` has no `return` statement, so its Python
return value is `None` — on the empty source the totals are (0, 0), yet
the caller receives `none`, not the pair. -/
theorem c4_returns_none_counterexample :
    (ingest [] emptyConn true "mail.sqlite").map IngestResult.ret = .ok none ∧
    (none : Option (Nat × Nat)) ≠ some (0, 0) :=
  ⟨rfl, by decide⟩

/-- C4 amended: after processing all messages of the source and flushing
any remaining partial batch (nothing is left pending), `ingest` reports
the final totals in its printed summary — which accounts for every
message — and returns `None` rather than the pair. -/
theorem c4_run_reports_totals (msgs : List PyMsg) (c : Conn) (sp : Bool) (path : String)
    (r : IngestResult) (h : ingest msgs c sp path = .ok r) :
    r.ret = none ∧ r.conn.pending = [] ∧
      ∃ i s, r.log.getLast? = some (PrintEvt.summary i s path) ∧ i + s = msgs.length :=
  ingest_characterization msgs c sp path r h

/-- C4 witness: the amended statement at a concrete one-message run. -/
theorem c4_witness :
    ∃ r, ingest [msgA] emptyConn true "mail.sqlite" = .ok r ∧
      r.ret = none ∧ r.conn.pending = [] ∧
      ∃ i s, r.log.getLast? = some (PrintEvt.summary i s "mail.sqlite") ∧ i + s = 1 := by
  refine ⟨_, rfl, ?_⟩
  have h := c4_run_reports_totals [msgA] emptyConn true "mail.sqlite" _ rfl
  simpa using h

/-- Length of a Python slice `s[:n]`. -/
lemma pyTake_length (s : String) (n : Nat) : (pyTake s n).length = min n s.length := by
  show (s.data.take n).length = min n s.length
  rw [List.length_take]
  rfl

/-- C5: a date that parses without a timezone offset is interpreted as
UTC — its fields are rendered unshifted, with second precision and a
`+00:00` offset — and an unparseable date yields the empty pair, never
an exception. -/
theorem c5_naive_utc_and_failure_empty :
    (∀ s dt, parsedate_to_datetime s = .ok dt → dt.off = none →
        parse_date_to_iso s = isoformatSec { dt with off := some 0 }) ∧
    (∀ s e, parsedate_to_datetime s = .error e →
        parse_date_to_iso s = "" ∧
        (if parse_date_to_iso s ≠ "" then pyTake (parse_date_to_iso s) 10 else "") = "") := by
  constructor
  · intro s dt hp ho
    have hs : s ≠ "" := by
      intro hx
      rw [hx] at hp
      have he : parsedate_to_datetime "" = .error .valueError := rfl
      rw [he] at hp
      cases hp
    unfold parse_date_to_iso
    rw [if_neg hs, hp]
    simp [ho, astimezoneUtc]
  · intro s e hp
    unfold parse_date_to_iso
    by_cases hs : s = ""
    · simp [hs]
    · rw [if_neg hs, hp]
      simp

/-- C5 witness: the naive date `01 Jan 2024 10:00:00` is rendered as UTC
without shifting, and `not a date` yields the empty pair. -/
theorem c5_witness :
    parse_date_to_iso "01 Jan 2024 10:00:00" =
      isoformatSec ⟨2024, 1, 1, 10, 0, 0, some 0⟩ ∧
    parse_date_to_iso "not a date" = "" := by
  constructor
  · exact c5_naive_utc_and_failure_empty.1 "01 Jan 2024 10:00:00"
      ⟨2024, 1, 1, 10, 0, 0, none⟩ rfl rfl
  · exact (c5_naive_utc_and_failure_empty.2 "not a date" PyErr.valueError rfl).1

/-- C6: for every date-header input, the derived `date_day` is empty iff
`date_iso` is empty, and otherwise equals the first ten characters of
`date_iso` and is a strict prefix of it (`date_iso` always has 25
characters). -/
theorem c6_day_iso_invariant (ds : String) :
    ((if parse_date_to_iso ds ≠ "" then pyTake (parse_date_to_iso ds) 10 else "") = "" ↔
      parse_date_to_iso ds = "") ∧
    (parse_date_to_iso ds ≠ "" →
      (if parse_date_to_iso ds ≠ "" then pyTake (parse_date_to_iso ds) 10 else "") =
        pyTake (parse_date_to_iso ds) 10 ∧
      (pyTake (parse_date_to_iso ds) 10).length = 10 ∧
      (parse_date_to_iso ds).length = 25 ∧
      pyTake (parse_date_to_iso ds) 10 ≠ parse_date_to_iso ds) := by
  rcases parse_date_to_iso_shape ds with h | ⟨dt, h⟩
  · rw [h]
    simp
  · have hlen : (parse_date_to_iso ds).length = 25 := by rw [h]; exact isoformatSec_length dt
    have hne : parse_date_to_iso ds ≠ "" := by
      intro hx
      rw [hx] at hlen
      cases hlen
    have hdaylen : (pyTake (parse_date_to_iso ds) 10).length = 10 := by
      rw [pyTake_length, hlen]
      decide
    have hday : pyTake (parse_date_to_iso ds) 10 ≠ parse_date_to_iso ds := by
      intro hx
      have := congrArg String.length hx
      rw [hdaylen, hlen] at this
      cases this
    constructor
    · rw [if_pos hne]
      constructor
      · intro hx
        rw [hx] at hdaylen
        cases hdaylen
      · intro hx
        exact absurd hx hne
    · intro _
      exact ⟨if_pos hne, hdaylen, hlen, hday⟩

/-- C6 witness: the invariant at a concrete valid date. -/
theorem c6_witness :
    (pyTake (parse_date_to_iso "01 Jan 2024 10:00:00") 10).length = 10 ∧
    (parse_date_to_iso "01 Jan 2024 10:00:00").length = 25 ∧
    pyTake (parse_date_to_iso "01 Jan 2024 10:00:00") 10 ≠
      parse_date_to_iso "01 Jan 2024 10:00:00" := by
  have h := (c6_day_iso_invariant "01 Jan 2024 10:00:00").2 (by decide)
  exact ⟨h.2.1, h.2.2.1, h.2.2.2⟩

/-- The preview loop, with its surrounding exception handler, returns
the decoded truncated text of the first qualifying part with a truthy
payload (or `""` when decoding that part fails or no such part exists). -/
lemma previewLoop_find (limit : Nat) (l : List PyMsg) :
    (match previewLoop limit l with | .ok s => s | .error _ => "") =
      match l.find? (fun p => claimQualifying p && truthyPayload p) with
      | some p =>
        match pyBytesDecode ((msgCharset p).getD "utf-8") ((msgPayload p).getD []) with
        | .ok t => pyTake t limit
        | .error _ => ""
      | none => "" := by
  induction l with
  | nil => rfl
  | cons p rest ih =>
    by_cases hct : msgCtype p = "text/plain"
    · by_cases hd : strContains (strLower (msgGetD p "Content-Disposition" "")) "attachment" = true
      · have hq : claimQualifying p = false := by
          simp [claimQualifying, hct, hd]
        simp only [previewLoop, List.find?, hq, Bool.false_and]
        rw [if_pos hct, if_pos hd]
        exact ih
      · have hd2 : strContains (strLower (msgGetD p "Content-Disposition" "")) "attachment" = false := by
          simpa using hd
        have hq : claimQualifying p = true := by
          simp [claimQualifying, hct, hd2]
        cases hpay : msgPayload p with
        | none =>
          have ht : truthyPayload p = false := by simp [truthyPayload, hpay]
          simp only [previewLoop, List.find?, hq, ht, Bool.true_and]
          rw [if_pos hct, if_neg (by simp [hd2]), hpay]
          exact ih
        | some bs =>
          by_cases hbs : bs = []
          · have ht : truthyPayload p = false := by simp [truthyPayload, hpay, hbs]
            simp only [previewLoop, List.find?, hq, ht, Bool.true_and]
            rw [if_pos hct, if_neg (by simp [hd2]), hpay]
            simp [hbs]
            exact ih
          · have ht : truthyPayload p = true := by simp [truthyPayload, hpay, hbs]
            simp only [previewLoop, List.find?, hq, ht, Bool.true_and]
            rw [if_pos hct, if_neg (by simp [hd2]), hpay]
            cases hdec : pyBytesDecode ((msgCharset p).getD "utf-8") bs with
            | ok t => simp [hbs, hdec]
            | error e => simp [hbs, hdec]
    · have hq : claimQualifying p = false := by
        simp [claimQualifying, hct]
      simp only [previewLoop, List.find?, hq, Bool.false_and]
      rw [if_neg hct]
      exact ih

/-- C7 amended: on a multipart message, `get_plain_text_preview` returns
the decoded, truncated text of the first `text/plain`, non-attachment
part whose payload is non-empty (empty-payload parts are passed over);
`""` when no such part exists or the chosen part fails to decode. -/
theorem c7_first_qualifying_part (msg : PyMsg) (limit : Nat) (h : msgIsMultipart msg = true) :
    get_plain_text_preview msg limit = specPreviewAmended msg limit := by
  unfold get_plain_text_preview specPreviewAmended
  rw [if_pos h]
  exact previewLoop_find limit (msgWalk msg)

/-- C7 counterexample: a multipart message whose first qualifying
`text/plain` part has an empty payload: the claim's first-qualifying-part
reading yields `""`, but the code skips it and returns the second part's
text `"hi"`. -/
theorem c7_counterexample :
    get_plain_text_preview cMsgEmptyFirst 2000 = "hi" ∧
    specPreviewClaim cMsgEmptyFirst 2000 = "" := ⟨rfl, rfl⟩

/-- C7 witness: the amended statement at a concrete multipart message
whose only part is an attachment (preview is empty). -/
theorem c7_witness :
    get_plain_text_preview attachOnlyMsg 2000 = specPreviewAmended attachOnlyMsg 2000 ∧
    get_plain_text_preview attachOnlyMsg 2000 = "" :=
  ⟨c7_first_qualifying_part attachOnlyMsg 2000 rfl, rfl⟩

/-- Row with the non-empty natural key `"k"`. -/
def rowK : Row := ⟨"k", "", "", "", "", "", "", ""⟩

/-- Connection whose store already holds `rowK`. -/
def connK : Conn := ⟨fullSchema, [rowK], []⟩

/-- C8: (i) a record with a non-empty `message_id` whose insert is
silently ignored by the uniqueness constraint still counts as inserted
and adds no row; (ii) a per-record failure is caught, counted as
skipped, and the rest of the batch is still processed on the unchanged
connection; (iii) a successful insert counts as inserted and the rest of
the batch continues from the updated connection; (iv) one commit is
issued after all rows are attempted — nothing stays pending, and every
row visible before the flush (hence every row staged by an earlier
success) is durably committed, unaffected by later row failures. -/
theorem c8_flush_semantics :
    (∀ (c : Conn) (row : Row), row.message_id ≠ "" → keyPresent c row.message_id = true →
        flush_batch c [row] = (1, 0, commitConn c)) ∧
    (∀ (c : Conn) (row : Row) (batch : List Row) (e : PyErr), insertRow c row = .error e →
        flush_batch c (row :: batch) =
          ((flush_batch c batch).1, (flush_batch c batch).2.1 + 1,
           (flush_batch c batch).2.2)) ∧
    (∀ (c c2 : Conn) (row : Row) (batch : List Row), insertRow c row = .ok c2 →
        flush_batch c (row :: batch) =
          ((flush_batch c2 batch).1 + 1, (flush_batch c2 batch).2.1,
           (flush_batch c2 batch).2.2)) ∧
    (∀ (c : Conn) (batch : List Row),
        (flush_batch c batch).2.2.pending = [] ∧
        ∀ r, r ∈ visibleRows c → r ∈ (flush_batch c batch).2.2.committed) := by
  refine ⟨?_, ?_, ?_, ?_⟩
  · intro c row hk hp
    simp [flush_batch, flushLoop, insertRow, insertOrIgnore, hk, hp]
  · intro c row batch e he
    simp only [flush_batch, flushLoop, he]
    rw [flushLoop_shift batch c 0 1]
    simp
  · intro c c2 row batch he
    simp only [flush_batch, flushLoop, he]
    rw [flushLoop_shift batch c2 1 0]
    simp
  · intro c batch
    exact ⟨flush_batch_pending c batch, fun r hr => flush_batch_durable c batch r hr⟩

/-- C8 witness: the four parts at concrete connections and rows — an
ignored duplicate of `"k"`, a failing empty-key duplicate followed by a
successful row, a fresh successful insert, and durability of the
already-visible row. -/
theorem c8_witness :
    flush_batch connK [rowK] = (1, 0, commitConn connK) ∧
    flush_batch ⟨fullSchema, [emptyKeyRow], []⟩ [emptyKeyRow, rowK] =
      ((flush_batch ⟨fullSchema, [emptyKeyRow], []⟩ [rowK]).1,
       (flush_batch ⟨fullSchema, [emptyKeyRow], []⟩ [rowK]).2.1 + 1,
       (flush_batch ⟨fullSchema, [emptyKeyRow], []⟩ [rowK]).2.2) ∧
    flush_batch (init_db emptyConn) [rowK, emptyKeyRow] =
      ((flush_batch ⟨fullSchema, [], [rowK]⟩ [emptyKeyRow]).1 + 1,
       (flush_batch ⟨fullSchema, [], [rowK]⟩ [emptyKeyRow]).2.1,
       (flush_batch ⟨fullSchema, [], [rowK]⟩ [emptyKeyRow]).2.2) ∧
    (flush_batch connK [emptyKeyRow]).2.2.pending = [] ∧
    rowK ∈ (flush_batch connK [emptyKeyRow]).2.2.committed := by
  refine ⟨?_, ?_, ?_, ?_, ?_⟩
  · exact c8_flush_semantics.1 connK rowK (by decide) (by decide)
  · exact c8_flush_semantics.2.1 ⟨fullSchema, [emptyKeyRow], []⟩ emptyKeyRow [rowK]
      PyErr.integrityError rfl
  · exact c8_flush_semantics.2.2.1 (init_db emptyConn) ⟨fullSchema, [], [rowK]⟩ rowK
      [emptyKeyRow] rfl
  · exact (c8_flush_semantics.2.2.2 connK [emptyKeyRow]).1
  · exact (c8_flush_semantics.2.2.2 connK [emptyKeyRow]).2 rowK (by decide)

/-- C9: `init_db` is idempotent — any number of calls leaves the same
state as one call, and when the schema objects are already present the
schema is untouched (each `CREATE ... IF NOT EXISTS` is a no-op). -/
theorem c9_init_db_idempotent :
    (∀ (c : Conn) (n : Nat), init_db^[n + 1] c = init_db c) ∧
    (∀ c : Conn, c.schema = fullSchema → (init_db c).schema = c.schema) := by
  constructor
  · intro c n
    induction n with
    | zero => simp
    | succ n ih =>
      rw [Function.iterate_succ_apply', ih]
      simp [init_db, commitConn]
  · intro c h
    rw [h]
    rfl

/-- C9 witness: three calls equal one call on a fresh store, and a second
call leaves the schema of the first untouched. -/
theorem c9_witness :
    init_db^[3] emptyConn = init_db emptyConn ∧
    (init_db (init_db emptyConn)).schema = (init_db emptyConn).schema :=
  ⟨c9_init_db_idempotent.1 emptyConn 2,
   c9_init_db_idempotent.2 (init_db emptyConn) rfl⟩

/-- C10: every record of a batch lands in exactly one of the two
counters (`inserted + skipped` equals the batch size), and at the end of
a run the reported totals account for every message streamed from the
source. -/
theorem c10_counter_conservation :
    (∀ (c : Conn) (batch : List Row),
        (flush_batch c batch).1 + (flush_batch c batch).2.1 = batch.length) ∧
    (∀ (msgs : List PyMsg) (c : Conn) (sp : Bool) (path : String) (r : IngestResult),
        ingest msgs c sp path = .ok r →
        ∃ i s, r.log.getLast? = some (PrintEvt.summary i s path) ∧ i + s = msgs.length) :=
  ⟨flush_batch_totals,
   fun msgs c sp path r h => (ingest_characterization msgs c sp path r h).2.2⟩

/-- C10 witness: conservation at a concrete batch and a concrete
three-message run. -/
theorem c10_witness :
    (flush_batch connK [rowK, emptyKeyRow]).1 +
      (flush_batch connK [rowK, emptyKeyRow]).2.1 = 2 ∧
    ∃ r, ingest [msgA, msgA, msgC] emptyConn true "mail.sqlite" = .ok r ∧
      ∃ i s, r.log.getLast? = some (PrintEvt.summary i s "mail.sqlite") ∧ i + s = 3 := by
  refine ⟨c10_counter_conservation.1 connK [rowK, emptyKeyRow], ?_⟩
  refine ⟨_, rfl, ?_⟩
  have h := c10_counter_conservation.2 [msgA, msgA, msgC] emptyConn true "mail.sqlite" _ rfl
  simpa using h
